import Mathlib

/-!
Verification development for the GPU tensor-operation kernels of
`ngraph/transformers/gpu/tensor_ops.py`.

The Python source is shallowly embedded: each kernel's data path becomes a
pure Lean function over explicit state.  Real values are modelled by `ℚ`
(the Python code uses floats only through exact arithmetic on the claims
considered here), quantized storage values by `ℤ`, and device-side effects
(filling a tensor, enqueueing on a shared queue) by explicit value passing.
External collaborators that are imported by the source but not part of it
(`_get_copy_transpose_kernel`, `pointer_from_td`, the random generator) are
abstracted as function parameters or as the raw sample inputs of the
functions that consume them.
-/

set_option autoImplicit false

/-- Python's `int(x)` conversion applied to a real number: truncation toward
zero (floor for nonnegative arguments, ceiling for negative ones).  Used by
`FlexFillKernel.execute` (`val = int(self.value / self.scale)`) and by the
numpy `astype` casts in `FlexRngFillKernel.execute`. -/
def pyInt (q : ℚ) : ℤ :=
  if 0 ≤ q then ⌊q⌋ else ⌈q⌉

/-- A symbolic compile-time tensor description (`TensorDescription` in the
source).  Only its identity matters to the kernels modelled here; the
concrete device address it resolves to is supplied externally by
`pointer_from_td`, modelled as an abstract function `TensorDescription → ℤ`. -/
structure TensorDescription where
  id : ℕ
deriving DecidableEq, Repr

/-- One entry of a kernel parameter list: either a still-symbolic tensor
descriptor, a concrete device address (the result of `pointer_from_td`), or
a plain concrete value (a stride or a kernel-specific scalar argument). -/
inductive KParam where
  | desc (t : TensorDescription)
  | addr (a : ℤ)
  | val (n : ℤ)
deriving DecidableEq, Repr

/-- `TensorDescriptionWrapper`: the normalized view of a tensor description
used by kernel generation — its underlying descriptor, shape and strides. -/
structure TensorDescriptionWrapper where
  td : TensorDescription
  shape : List ℕ
  strides : List ℤ
deriving DecidableEq, Repr

/-- The compiled copy-transpose kernel handle returned by
`_get_copy_transpose_kernel` (an external collaborator, not part of the
source under verification): all the kernels here use of it is its list of
kernel-specific scalar/structural arguments `kernel.args`. -/
structure CopyTransposeKernel where
  args : List KParam
deriving DecidableEq, Repr

/-- `get_dimshuffle(dtype, shape, axes, src, dst)`: builds the compiled
kernel via the (abstracted) generator `genKernel` and assembles the
parameter list
`params = [dst.td, src.td] + list(kernel.args)` followed by
`params = params + list(src.strides) + list(dst.strides)`. -/
def get_dimshuffle (genKernel : ℕ → List ℕ → List ℕ → CopyTransposeKernel)
    (dtype : ℕ) (shape : List ℕ) (axes : List ℕ)
    (src dst : TensorDescriptionWrapper) :
    CopyTransposeKernel × List KParam :=
  let kernel := genKernel dtype shape axes
  let params := [KParam.desc dst.td, KParam.desc src.td] ++ kernel.args
  (kernel, params ++ src.strides.map KParam.val ++ dst.strides.map KParam.val)

/-- The body of the `bind_buffers` loops of `DimShuffleKernel` and
`SetItemKernel` applied to a single entry: an entry that
`isinstance(..., TensorDescription)` is replaced by
`pointer_from_td(...)` (the abstract address map `ptr`); every other entry
is left as it is. -/
def bindParam (ptr : TensorDescription → ℤ) (p : KParam) : KParam :=
  match p with
  | KParam.desc t => KParam.addr (ptr t)
  | p => p

/-- `bind_buffers` of `DimShuffleKernel` (and the identical loop inside
`SetItemKernel.bind_buffers`): the in-place loop
`for index in range(len(self.params)): if isinstance(self.params[index],
TensorDescription): self.params[index] = pointer_from_td(...)`
updates each position independently, i.e. maps `bindParam` over the list. -/
def bind_buffers (ptr : TensorDescription → ℤ) (params : List KParam) :
    List KParam :=
  params.map (bindParam ptr)

/-- The pair of observables produced by `FlexFillKernel.execute`: the value
the tensor is filled with, and the reported `maxabs`. -/
structure FlexFillOut where
  stored : ℤ
  maxabs : ℤ
deriving DecidableEq, Repr

/-- The quantized value computed by `FlexFillKernel.execute`:
`val = int(self.value / self.scale)`. -/
def flexFillQuantized (value scale : ℚ) : ℤ :=
  pyInt (value / scale)

/-- `FlexFillKernel.execute` with clip bounds `pclip`/`nclip` (the maximum
representable positive/negative values of the quantized storage type, hence
integers, so the source's `clipped = int(pclip)` is the identity here):
if `val > pclip` fill with `pclip` and set `maxabs = clipped`;
elif `val < nclip` fill with `nclip` and set `maxabs = abs(clipped)`;
else fill with `val` and set `maxabs = abs(val)`. -/
def flexFillExecute (pclip nclip : ℤ) (value scale : ℚ) : FlexFillOut :=
  let val := flexFillQuantized value scale
  if pclip < val then
    { stored := pclip, maxabs := pclip }
  else if val < nclip then
    { stored := nclip, maxabs := |nclip| }
  else
    { stored := val, maxabs := |val| }

/-- The distribution-specific parameter dictionary passed to
`RngFillKernel`: `{'low': .., 'high': ..}` entries are read by the uniform
branch and `{'loc': .., 'scale': ..}` by the normal branch. -/
structure RngParams where
  low : ℚ
  high : ℚ
  loc : ℚ
  scale : ℚ
deriving DecidableEq, Repr

/-- The error vocabulary of §7 of the specification.  The spec names an
`UnsupportedDistribution` failure for unknown distribution tags; the type
exists here so that its (non-)occurrence in the embedded code is statable. -/
inductive KernelError where
  | unsupportedDistribution (tag : String)
deriving DecidableEq, Repr

/-- The state stored by `RngFillKernel.__init__`: the distribution tag and
the parameter dictionary (the destination tensor is not relevant to the
construction-time claims). -/
structure RngFillState where
  distribution : String
  params : RngParams
deriving DecidableEq, Repr

/-- `RngFillKernel.__init__(transformer, td, distribution, params)`: the
body is straight-line attribute assignment (`self.distribution = ...`,
`self.params = ...`, `self.out = td`) with no `raise` statement and no
inspection of `distribution`, so construction always succeeds; the
`Except` return type makes the absence of a failure path observable. -/
def rngFillInit (distribution : String) (params : RngParams) :
    Except KernelError RngFillState :=
  Except.ok { distribution := distribution, params := params }

/-- `RngFillKernel.execute`: the external generator
(`pcg.fill_uniform` / `pcg.fill_normal`) overwrites the destination with
base samples — modelled by the list `raws`, one raw sample per element —
and the affine transform is then applied elementwise in place.  When the
tag matches neither `'uniform'` nor `'normal'` the `if/elif` chain has no
`else`, so nothing is written and the destination `out` is returned
unchanged (and no exception can be raised: the body has no other
statements). -/
def rngFillExecute (distribution : String) (params : RngParams)
    (raws : List ℚ) (out : List ℚ) : List ℚ :=
  if distribution = "uniform" then
    raws.map (fun r => r * (params.high - params.low) + params.low)
  else if distribution = "normal" then
    raws.map (fun r => r * params.scale + params.loc)
  else
    out

/-- `FlexRngFillKernel.execute`: base samples are drawn into the float32
intermediate `out_float = self.out.astype(np.float32)` (the wider
representation is modelled by the rational raw samples `raws`), the affine
transform is applied, the result is divided by the bound flex scale and
cast down to the integer storage dtype with `.astype(self.out.dtype)` —
a truncation toward zero, modelled by `pyInt`.  (The modular wrap-around a
numpy cast performs when the truncated value exceeds the storage width is
platform-defined and not modelled; what matters here is that no clipping
against the flex clip bounds occurs anywhere in the data path.)  Unknown
tags fall through both branches, leaving `out` unchanged. -/
def flexRngFillExecute (distribution : String) (params : RngParams)
    (scale : ℚ) (raws : List ℚ) (out : List ℤ) : List ℤ :=
  if distribution = "uniform" then
    raws.map (fun r =>
      pyInt ((r * (params.high - params.low) + params.low) / scale))
  else if distribution = "normal" then
    raws.map (fun r => pyInt ((r * params.scale + params.loc) / scale))
  else
    out

/-- A slice or index expression, the possible shapes of `op.item` in
`SetItemKernel`.  Only its presence or absence matters to the kernels. -/
inductive ItemExpr where
  | slice (lo hi : ℤ)
  | index (i : ℤ)
deriving DecidableEq, Repr

/-- The construction-time test of `SetItemKernel.__init__`:
`len(self.tensor.strides) > 0 and np.min(self.tensor.strides) < 0 and
self.item is None` (`np.min` of a nonempty sequence is its least
element, here the left fold of `min` over the strides). -/
def setItemUsesFallback (strides : List ℤ) (item : Option ItemExpr) : Bool :=
  match strides with
  | [] => false
  | s :: rest => decide (List.foldl min s rest < 0) && item.isNone

/-- The three execution paths of `SetItemKernel.execute`: the compiled
fallback kernel, the scalar `fill`, and the direct sliced assignment
`self.tensor.__setitem__(self.item, self.value)`. -/
inductive SetItemPath where
  | fallbackKernel
  | scalarFill
  | directAssign
deriving DecidableEq, Repr

/-- The dispatch of `SetItemKernel.execute`: `self.kernel is not None`
holds exactly when the construction-time test fired; otherwise a
scalar-shaped destination (`self.tensor.shape == ()`) is filled and any
other destination receives the direct sliced assignment. -/
def setItemExecutePath (strides : List ℤ) (shape : List ℕ)
    (item : Option ItemExpr) : SetItemPath :=
  if setItemUsesFallback strides item then SetItemPath.fallbackKernel
  else if shape = [] then SetItemPath.scalarFill
  else SetItemPath.directAssign

/-- The kernel-generation decision of `SetItemKernel.__init__`: when the
construction-time test fires, a Dimshuffle copy kernel is generated by
`get_dimshuffle(dtype, shape, tuple(range(len(shape))), value, tensor)`
(identity axis order, source = the value being assigned, destination = the
tensor); in every other case `self.kernel = None`. -/
def SetItemKernelInit (genKernel : ℕ → List ℕ → List ℕ → CopyTransposeKernel)
    (dtype : ℕ) (tensor value : TensorDescriptionWrapper)
    (item : Option ItemExpr) :
    Option (CopyTransposeKernel × List KParam) :=
  if setItemUsesFallback tensor.strides item then
    some (get_dimshuffle genKernel dtype tensor.shape
      (List.range tensor.shape.length) value tensor)
  else
    none

/-- A materialized tensor value: its logical shape and its elements in a
fixed traversal order.  This is the host-visible snapshot `tensor.get(None)`
produces and the content a destination tensor holds. -/
structure NDValue where
  shape : List ℕ
  data : List ℚ
deriving DecidableEq, Repr

/-- `tensor.fill(v)`: every element is set to the scalar `v`; the shape is
unchanged. -/
def tensorFill (t : NDValue) (v : ℚ) : NDValue :=
  { t with data := t.data.map (fun _ => v) }

/-- Full-tensor assignment `tensor.__setitem__(None, x)` between
same-shaped operands: the destination takes over the source's elements. -/
def setItemFull (t : NDValue) (x : NDValue) : NDValue :=
  { t with data := x.data }

/-- The blocking shared queue (`shared_q`) that pairs one `SendKernel`
with one `RecvKernel`: a FIFO list of pending values. -/
structure SharedQueue where
  items : List NDValue
deriving DecidableEq, Repr

/-- `q.put(value)`: append at the back of the FIFO. -/
def queuePut (q : SharedQueue) (v : NDValue) : SharedQueue :=
  ⟨q.items ++ [v]⟩

/-- `q.get()`: take the front of the FIFO; `none` models the blocked state
on an empty queue (the caller suspends until a value is available). -/
def queueGet (q : SharedQueue) : Option (NDValue × SharedQueue) :=
  match q.items with
  | [] => none
  | v :: rest => some (v, ⟨rest⟩)

/-- `SendKernel.execute`: `value = self.tensor.get(None)` materializes the
source (passed here as `srcValue`) and `self.q.put(value)` enqueues it. -/
def sendExecute (q : SharedQueue) (srcValue : NDValue) : SharedQueue :=
  queuePut q srcValue

/-- The write step of `RecvKernel.execute`: a scalar-shaped destination
(`self.tensor.shape == ()`) is filled with the received value (its single
element), any other destination receives the full-tensor assignment
`self.tensor.__setitem__(None, x)`. -/
def recvWrite (dest : NDValue) (x : NDValue) : NDValue :=
  if dest.shape = [] then tensorFill dest (x.data.headD 0)
  else setItemFull dest x

/-- `RecvKernel.execute`: `x = q.get()` takes one value from the shared
queue (blocking while it is empty), then writes it into the destination. -/
def recvExecute (q : SharedQueue) (dest : NDValue) :
    Option (NDValue × SharedQueue) :=
  (queueGet q).map (fun p => (recvWrite dest p.1, p.2))

lemma pyInt_intCast (n : ℤ) : pyInt (n : ℚ) = n := by
  unfold pyInt
  split <;> simp

lemma pyInt_abs_eq_floor_abs (q : ℚ) : |pyInt q| = ⌊|q|⌋ := by
  unfold pyInt
  split
  · rename_i h
    rw [abs_of_nonneg h, abs_of_nonneg (Int.floor_nonneg.mpr h)]
  · rename_i h
    have hq : q < 0 := not_le.mp h
    have hceil : ⌈q⌉ ≤ 0 := Int.ceil_le.mpr (by simpa using hq.le)
    rw [abs_of_neg hq, abs_of_nonpos hceil, Int.floor_neg]

lemma flexFillQuantized_300_1 : flexFillQuantized 300 1 = 300 := by
  unfold flexFillQuantized
  rw [div_one]
  simp [pyInt]

lemma flexFillQuantized_neg17_10 : flexFillQuantized (-17/10) 1 = -1 := by
  unfold flexFillQuantized
  rw [div_one]
  unfold pyInt
  rw [if_neg (by norm_num), show ((-17 : ℚ)/10) = -(17/10) by ring,
    Int.ceil_neg]
  norm_num

/-- C1: for a `FlexFillKernel` whose flex scale has been bound (a nonzero
scale, with well-formed clip bounds `nclip ≤ pclip`), `execute` stores the
quantized value `int(value/scale)` clipped into `[nclip, pclip]`: above
`pclip` it fills with `pclip` and reports `maxabs = pclip`; below `nclip`
it fills with `nclip` and reports `maxabs = |nclip|`; otherwise it fills
with the quantized value and reports its absolute value. -/
theorem flexFill_clip_spec (value scale : ℚ) (pclip nclip : ℤ)
    (hscale : scale ≠ 0) (hclip : nclip ≤ pclip) :
    (pclip < flexFillQuantized value scale →
        flexFillExecute pclip nclip value scale =
          { stored := pclip, maxabs := pclip })
    ∧ (flexFillQuantized value scale < nclip →
        flexFillExecute pclip nclip value scale =
          { stored := nclip, maxabs := |nclip| })
    ∧ (nclip ≤ flexFillQuantized value scale →
        flexFillQuantized value scale ≤ pclip →
        flexFillExecute pclip nclip value scale =
          { stored := flexFillQuantized value scale,
            maxabs := |flexFillQuantized value scale| }) := by
  unfold flexFillExecute
  refine ⟨fun h => ?_, fun h => ?_, fun h1 h2 => ?_⟩
  · rw [if_pos h]
  · rw [if_neg (not_lt.mpr (le_of_lt (lt_of_lt_of_le h hclip))), if_pos h]
  · rw [if_neg (not_lt.mpr h2), if_neg (not_lt.mpr h1)]

/-- C1 witness: the spec's own example, `FlexFill(value=300, pclip=127)`
with scale 1 and `nclip = -128` stores `127` and reports `maxabs = 127`. -/
theorem flexFill_clip_spec_witness :
    flexFillExecute 127 (-128) 300 1 = { stored := 127, maxabs := 127 } :=
  (flexFill_clip_spec 300 1 127 (-128) one_ne_zero (by decide)).1
    (by rw [flexFillQuantized_300_1]; decide)

/-- C9: the quantized value `val = int(value/scale)` that
`FlexFillKernel.execute` compares against the clip bounds is the exact
quotient truncated toward zero: its magnitude is `⌊|value/scale|⌋` (floor
for nonnegative quotients, ceiling for negative ones), and in particular a
quotient of `-1.7` quantizes to `-1`, not `-2`. -/
theorem flexFillQuantized_truncates_toward_zero :
    (∀ value scale : ℚ,
        |flexFillQuantized value scale| = ⌊|value / scale|⌋
        ∧ (0 ≤ value / scale →
            flexFillQuantized value scale = ⌊value / scale⌋)
        ∧ (value / scale < 0 →
            flexFillQuantized value scale = ⌈value / scale⌉))
    ∧ flexFillQuantized (-17/10) 1 = -1 := by
  constructor
  · intro value scale
    refine ⟨pyInt_abs_eq_floor_abs _, fun h => ?_, fun h => ?_⟩
    · unfold flexFillQuantized pyInt
      rw [if_pos h]
    · unfold flexFillQuantized pyInt
      rw [if_neg (not_le.mpr h)]
  · exact flexFillQuantized_neg17_10

/-- C9 witness: at `value/scale = -1.7` the truncation is the ceiling of
the quotient, i.e. `-1`. -/
theorem flexFillQuantized_truncates_toward_zero_witness :
    flexFillQuantized (-17/10) 1 = ⌈((-17 : ℚ)/10) / 1⌉ :=
  (flexFillQuantized_truncates_toward_zero.1 (-17/10) 1).2.2 (by norm_num)

/-- C3 counterexample: constructing an `RngFillKernel` with the unknown
distribution tag `'poisson'` does not fail — it succeeds and stores the
tag verbatim, so no `UnsupportedDistribution` error is raised at
construction. -/
theorem rngFillInit_counterexample :
    rngFillInit "poisson" { low := 0, high := 1, loc := 0, scale := 1 } =
      Except.ok { distribution := "poisson",
                  params := { low := 0, high := 1, loc := 0, scale := 1 } }
    ∧ rngFillInit "poisson" { low := 0, high := 1, loc := 0, scale := 1 } ≠
        Except.error (KernelError.unsupportedDistribution "poisson") :=
  ⟨rfl, fun h => Except.noConfusion h⟩

/-- C3 amended: constructing an `RngFill` kernel never fails, whatever the
distribution tag — the constructor stores the tag and parameters without
validating them, and no `UnsupportedDistribution` (or any other) error can
be produced at construction. -/
theorem rngFillInit_never_fails (distribution : String) (params : RngParams) :
    rngFillInit distribution params =
      Except.ok { distribution := distribution, params := params }
    ∧ ∀ e : KernelError, rngFillInit distribution params ≠ Except.error e :=
  ⟨rfl, fun _ h => Except.noConfusion h⟩

/-- C10: executing an `RngFillKernel` or a `FlexRngFillKernel` whose
distribution tag is neither `'uniform'` nor `'normal'` runs neither branch
of the `if/elif` chain: it returns without raising and leaves the
destination tensor's contents completely unchanged. -/
theorem rngFill_unknown_tag_silent_noop (distribution : String)
    (params : RngParams) (scale : ℚ) (raws : List ℚ)
    (out : List ℚ) (outFlex : List ℤ)
    (hu : distribution ≠ "uniform") (hn : distribution ≠ "normal") :
    rngFillExecute distribution params raws out = out
    ∧ flexRngFillExecute distribution params scale raws outFlex = outFlex := by
  constructor
  · unfold rngFillExecute
    rw [if_neg hu, if_neg hn]
  · unfold flexRngFillExecute
    rw [if_neg hu, if_neg hn]

/-- C10 witness: with tag `'poisson'` both execute bodies leave the
destination exactly as it was. -/
theorem rngFill_unknown_tag_silent_noop_witness :
    rngFillExecute "poisson" { low := 0, high := 1, loc := 0, scale := 1 }
        [1] [5] = [5]
    ∧ flexRngFillExecute "poisson"
        { low := 0, high := 1, loc := 0, scale := 1 } 1 [1] [7] = [7] :=
  rngFill_unknown_tag_silent_noop "poisson"
    { low := 0, high := 1, loc := 0, scale := 1 } 1 [1] [5] [7]
    (by decide) (by decide)

lemma foldl_min_le_init (l : List ℤ) : ∀ a : ℤ, List.foldl min a l ≤ a := by
  induction l with
  | nil => intro a; simp
  | cons b t ih =>
    intro a
    simp only [List.foldl_cons]
    exact le_trans (ih (min a b)) (min_le_left a b)

lemma foldl_min_le_mem (l : List ℤ) :
    ∀ a x : ℤ, x ∈ l → List.foldl min a l ≤ x := by
  induction l with
  | nil => intro a x hx; cases hx
  | cons b t ih =>
    intro a x hx
    simp only [List.foldl_cons]
    rcases List.mem_cons.mp hx with rfl | hx
    · exact le_trans (foldl_min_le_init t (min a x)) (min_le_right a x)
    · exact ih _ x hx

lemma foldl_min_mem_or_init (l : List ℤ) :
    ∀ a : ℤ, List.foldl min a l = a ∨ List.foldl min a l ∈ l := by
  induction l with
  | nil => intro a; exact Or.inl rfl
  | cons b t ih =>
    intro a
    simp only [List.foldl_cons]
    rcases ih (min a b) with h | h
    · rcases min_choice a b with hab | hab
      · exact Or.inl (h.trans hab)
      · exact Or.inr (List.mem_cons.mpr (Or.inl (h.trans hab)))
    · exact Or.inr (List.mem_cons.mpr (Or.inr h))

lemma foldl_min_neg_iff (s : ℤ) (rest : List ℤ) :
    List.foldl min s rest < 0 ↔ ∃ x ∈ s :: rest, x < 0 := by
  constructor
  · intro h
    rcases foldl_min_mem_or_init rest s with he | he
    · exact ⟨s, List.mem_cons_self s rest, he ▸ h⟩
    · exact ⟨List.foldl min s rest, List.mem_cons.mpr (Or.inr he), h⟩
  · rintro ⟨x, hx, hneg⟩
    rcases List.mem_cons.mp hx with rfl | hx
    · exact lt_of_le_of_lt (foldl_min_le_init rest x) hneg
    · exact lt_of_le_of_lt (foldl_min_le_mem rest s x hx) hneg

/-- C2: `SetItemKernel.__init__` generates the Dimshuffle fallback copy
kernel exactly when the destination has at least one dimension, its
minimum stride is negative (equivalently, some stride is negative), and no
slice/index expression is given; in every other case `self.kernel` is
`None` and `execute` takes one of the two direct-assignment paths (the
scalar fill for a `()`-shaped destination, the indexed/sliced assignment
otherwise), never the compiled kernel. -/
theorem setItemKernel_fallback_iff
    (genKernel : ℕ → List ℕ → List ℕ → CopyTransposeKernel) (dtype : ℕ)
    (tensor value : TensorDescriptionWrapper) (item : Option ItemExpr) :
    ((SetItemKernelInit genKernel dtype tensor value item).isSome = true ↔
      (tensor.strides ≠ [] ∧ (∃ s ∈ tensor.strides, s < 0) ∧ item = none))
    ∧ (SetItemKernelInit genKernel dtype tensor value item = none →
        setItemExecutePath tensor.strides tensor.shape item =
            SetItemPath.scalarFill ∨
          setItemExecutePath tensor.strides tensor.shape item =
            SetItemPath.directAssign) := by
  have hiff : setItemUsesFallback tensor.strides item = true ↔
      (tensor.strides ≠ [] ∧ (∃ s ∈ tensor.strides, s < 0) ∧ item = none) := by
    cases htl : tensor.strides with
    | nil => simp [setItemUsesFallback]
    | cons s rest =>
      simp only [setItemUsesFallback, Bool.and_eq_true, decide_eq_true_eq,
        Option.isNone_iff_eq_none]
      rw [foldl_min_neg_iff]
      constructor
      · rintro ⟨hex, hnone⟩
        exact ⟨List.cons_ne_nil s rest, hex, hnone⟩
      · rintro ⟨-, hex, hnone⟩
        exact ⟨hex, hnone⟩
  constructor
  · rw [← hiff]
    unfold SetItemKernelInit
    cases hf : setItemUsesFallback tensor.strides item <;> simp [hf]
  · intro hnone
    have hf : setItemUsesFallback tensor.strides item = false := by
      cases hf : setItemUsesFallback tensor.strides item
      · rfl
      · unfold SetItemKernelInit at hnone
        rw [if_pos hf] at hnone
        exact Option.noConfusion hnone
    unfold setItemExecutePath
    rw [hf]
    simp only [Bool.false_eq_true, if_false]
    by_cases hs : tensor.shape = []
    · exact Or.inl (by rw [if_pos hs])
    · exact Or.inr (by rw [if_neg hs])

/-- C2 witness: a destination of shape `(2, 3)` with the positive stride
list `[3, 1]` and no slice generates no kernel, and execution takes the
direct sliced-assignment path. -/
theorem setItemKernel_fallback_iff_witness :
    setItemExecutePath [3, 1] [2, 3] none = SetItemPath.scalarFill ∨
      setItemExecutePath [3, 1] [2, 3] none = SetItemPath.directAssign :=
  (setItemKernel_fallback_iff (fun _ _ _ => ⟨[]⟩) 0
    ⟨⟨0⟩, [2, 3], [3, 1]⟩ ⟨⟨1⟩, [2, 3], [3, 1]⟩ none).2 rfl

/-- C4: for every dtype, shape, axis permutation and source/destination
wrappers (and whatever compiled kernel the generator returns),
`get_dimshuffle` returns its parameter list in exactly the order
destination descriptor, source descriptor, the kernel's own
scalar/structural arguments, all source strides, then all destination
strides: stated as the full decomposition, the total length, the two
leading positions, and the three trailing segments. -/
theorem get_dimshuffle_param_order
    (genKernel : ℕ → List ℕ → List ℕ → CopyTransposeKernel) (dtype : ℕ)
    (shape axes : List ℕ) (src dst : TensorDescriptionWrapper) :
    ((get_dimshuffle genKernel dtype shape axes src dst).2 =
        [KParam.desc dst.td, KParam.desc src.td]
          ++ (get_dimshuffle genKernel dtype shape axes src dst).1.args
          ++ src.strides.map KParam.val ++ dst.strides.map KParam.val)
    ∧ ((get_dimshuffle genKernel dtype shape axes src dst).2.length =
        2 + (get_dimshuffle genKernel dtype shape axes src dst).1.args.length
          + src.strides.length + dst.strides.length)
    ∧ ((get_dimshuffle genKernel dtype shape axes src dst).2[0]? =
        some (KParam.desc dst.td))
    ∧ ((get_dimshuffle genKernel dtype shape axes src dst).2[1]? =
        some (KParam.desc src.td))
    ∧ (((get_dimshuffle genKernel dtype shape axes src dst).2.drop 2).take
          (get_dimshuffle genKernel dtype shape axes src dst).1.args.length =
        (get_dimshuffle genKernel dtype shape axes src dst).1.args)
    ∧ ((((get_dimshuffle genKernel dtype shape axes src dst).2.drop 2).drop
          (get_dimshuffle genKernel dtype shape axes src dst).1.args.length).take
          src.strides.length = src.strides.map KParam.val)
    ∧ ((((get_dimshuffle genKernel dtype shape axes src dst).2.drop 2).drop
          (get_dimshuffle genKernel dtype shape axes src dst).1.args.length).drop
          src.strides.length = dst.strides.map KParam.val) := by
  have hk : (get_dimshuffle genKernel dtype shape axes src dst).1 =
      genKernel dtype shape axes := rfl
  have hps : (get_dimshuffle genKernel dtype shape axes src dst).2 =
      KParam.desc dst.td :: KParam.desc src.td ::
        ((genKernel dtype shape axes).args ++
          (src.strides.map KParam.val ++ dst.strides.map KParam.val)) := by
    simp [get_dimshuffle]
  refine ⟨?_, ?_, ?_, ?_, ?_, ?_, ?_⟩
  · rw [hps, hk]
    simp
  · rw [hps, hk]
    simp [List.length_append]
    omega
  · rw [hps]
    rfl
  · rw [hps]
    simp
  · rw [hps, hk]
    simp only [List.drop_succ_cons, List.drop_zero]
    exact List.take_left _ _
  · rw [hps, hk]
    simp only [List.drop_succ_cons, List.drop_zero, List.drop_left]
    have := List.take_left (src.strides.map KParam.val)
      (dst.strides.map KParam.val)
    rwa [List.length_map] at this
  · rw [hps, hk]
    simp only [List.drop_succ_cons, List.drop_zero, List.drop_left]
    have := List.drop_left (src.strides.map KParam.val)
      (dst.strides.map KParam.val)
    rwa [List.length_map] at this

/-- C8: the `bind_buffers` loop shared by `DimShuffleKernel` and a
`SetItemKernel` holding a fallback kernel replaces exactly the entries that
are symbolic `TensorDescription` references with the concrete device
addresses `pointer_from_td` yields, leaves every non-descriptor entry
(strides, scalar arguments, already-resolved addresses) unchanged,
preserves the length and the position of every entry, and leaves no
symbolic descriptor behind. -/
theorem bind_buffers_resolves_descriptors (ptr : TensorDescription → ℤ)
    (params : List KParam) :
    ((bind_buffers ptr params).length = params.length)
    ∧ (∀ i : ℕ, (bind_buffers ptr params)[i]? =
        (params[i]?).map (bindParam ptr))
    ∧ (∀ t : TensorDescription,
        bindParam ptr (KParam.desc t) = KParam.addr (ptr t))
    ∧ (∀ p : KParam, (∀ t : TensorDescription, p ≠ KParam.desc t) →
        bindParam ptr p = p)
    ∧ (∀ p ∈ bind_buffers ptr params, ∀ t : TensorDescription,
        p ≠ KParam.desc t) := by
  refine ⟨by simp [bind_buffers], fun i => ?_, fun t => rfl,
    fun p hp => ?_, ?_⟩
  · simp [bind_buffers]
  · cases p with
    | desc t => exact absurd rfl (hp t)
    | addr a => rfl
    | val n => rfl
  · intro p hp t
    rcases List.mem_map.mp hp with ⟨q, hq, rfl⟩
    cases q <;> simp [bindParam]

/-- C8 witness: binding with the address map `td ↦ td.id` leaves the
non-descriptor entry `val 3` unchanged, and the entry a bound list holds in
place of the descriptor `⟨5⟩` is no longer a symbolic descriptor. -/
theorem bind_buffers_resolves_descriptors_witness :
    (bindParam (fun td => (td.id : ℤ)) (KParam.val 3) = KParam.val 3)
    ∧ KParam.addr ((5 : ℕ) : ℤ) ≠ KParam.desc ⟨5⟩ :=
  ⟨(bind_buffers_resolves_descriptors (fun td => (td.id : ℤ)) []).2.2.2.1
      (KParam.val 3) (fun _ h => KParam.noConfusion h),
    (bind_buffers_resolves_descriptors (fun td => (td.id : ℤ))
        [KParam.desc ⟨5⟩]).2.2.2.2
      (KParam.addr ((5 : ℕ) : ℤ)) (List.mem_singleton.mpr rfl) ⟨5⟩⟩

/-- C5: for a `FlexRngFillKernel` with a bound scale, `execute` applies the
affine transform to the base samples drawn into the float32 intermediate
(`raw*(high-low)+low` for `'uniform'`, `raw*scale+loc` for `'normal'`),
divides by the current flex scale and casts the quotient into the quantized
storage dtype by truncation — and no clipping against `pclip`/`nclip`
occurs anywhere: for any candidate clip bound there is a raw sample whose
stored result exceeds it. -/
theorem flexRngFill_affine_scale_cast (params : RngParams) (scale : ℚ)
    (raws : List ℚ) (out : List ℤ) :
    (flexRngFillExecute "uniform" params scale raws out =
        raws.map (fun r =>
          pyInt ((r * (params.high - params.low) + params.low) / scale)))
    ∧ (flexRngFillExecute "normal" params scale raws out =
        raws.map (fun r => pyInt ((r * params.scale + params.loc) / scale)))
    ∧ (∀ pclip : ℤ, ∃ raw : ℚ, ∃ y ∈ flexRngFillExecute "uniform"
        { low := 0, high := 1, loc := 0, scale := 1 } 1 [raw] out,
        pclip < y) := by
  refine ⟨by unfold flexRngFillExecute; rw [if_pos rfl], ?_, ?_⟩
  · unfold flexRngFillExecute
    rw [if_neg (by decide), if_pos rfl]
  · intro pclip
    have hl : flexRngFillExecute "uniform"
        { low := 0, high := 1, loc := 0, scale := 1 } 1
        [((pclip + 1 : ℤ) : ℚ)] out = [pclip + 1] := by
      unfold flexRngFillExecute
      rw [if_pos rfl]
      simp only [List.map_cons, List.map_nil]
      rw [show (((pclip + 1 : ℤ) : ℚ) * ((1 : ℚ) - 0) + 0) / 1 =
          ((pclip + 1 : ℤ) : ℚ) by ring]
      rw [pyInt_intCast]
    exact ⟨((pclip + 1 : ℤ) : ℚ), pclip + 1,
      by rw [hl]; exact List.mem_singleton.mpr rfl, by omega⟩

/-- C6: Send followed by Recv on the paired (fresh) channel transfers the
materialized value exactly: after `sendExecute` enqueues `x` and
`recvExecute` dequeues it into a destination of the same logical shape, the
destination's logical content equals `x`'s (shape and every element), and
the single enqueued value has been consumed.  The shapes cover scalar
(`[]`), 1-D and N-D tensors. -/
theorem send_recv_roundtrip (q : SharedQueue) (x dest : NDValue)
    (hq : q.items = []) (hshape : dest.shape = x.shape)
    (hx : x.data.length = x.shape.prod)
    (hdest : dest.data.length = dest.shape.prod) :
    ∃ d' : NDValue,
      recvExecute (sendExecute q x) dest = some (d', ⟨[]⟩)
      ∧ d'.shape = x.shape ∧ d'.data = x.data := by
  obtain ⟨items⟩ := q
  simp only at hq
  subst hq
  refine ⟨recvWrite dest x, rfl, ?_, ?_⟩
  · unfold recvWrite
    by_cases hs : dest.shape = []
    · rw [if_pos hs]
      exact hshape
    · rw [if_neg hs]
      exact hshape
  · unfold recvWrite
    by_cases hs : dest.shape = []
    · rw [if_pos hs]
      unfold tensorFill
      simp only
      have hxs : x.shape = [] := hshape ▸ hs
      have hx1 : x.data.length = 1 := by rw [hx, hxs]; rfl
      have hd1 : dest.data.length = 1 := by rw [hdest, hs]; rfl
      obtain ⟨a, ha⟩ := List.length_eq_one.mp hx1
      obtain ⟨b, hb⟩ := List.length_eq_one.mp hd1
      rw [ha, hb]
      rfl
    · rw [if_neg hs]
      rfl

/-- C6 witness: the 1-D value of shape `[2]` with elements `[3, 4]` sent on
a fresh channel is received bit-for-bit into a same-shaped destination,
leaving the channel empty. -/
theorem send_recv_roundtrip_witness :
    ∃ d' : NDValue,
      recvExecute (sendExecute ⟨[]⟩ ⟨[2], [3, 4]⟩) ⟨[2], [0, 0]⟩ =
          some (d', ⟨[]⟩)
      ∧ d'.shape = (⟨[2], [3, 4]⟩ : NDValue).shape
      ∧ d'.data = (⟨[2], [3, 4]⟩ : NDValue).data :=
  send_recv_roundtrip ⟨[]⟩ ⟨[2], [3, 4]⟩ ⟨[2], [0, 0]⟩ rfl rfl rfl rfl

/-- C7: a bound `RecvKernel.execute` takes exactly one value from the
channel (the FIFO's head; the rest of the queue is untouched), then writes
it into the destination: a `()`-shaped destination is filled with the value
as a scalar, any other destination receives the full-tensor assignment with
no slice. -/
theorem recvExecute_takes_one_and_writes (q : SharedQueue)
    (dest v : NDValue) (rest : List NDValue) (h : q.items = v :: rest) :
    recvExecute q dest = some (recvWrite dest v, ⟨rest⟩)
    ∧ (dest.shape = [] →
        recvWrite dest v = tensorFill dest (v.data.headD 0))
    ∧ (dest.shape ≠ [] → recvWrite dest v = setItemFull dest v) := by
  obtain ⟨items⟩ := q
  simp only at h
  subst h
  refine ⟨rfl, fun hs => ?_, fun hs => ?_⟩
  · unfold recvWrite
    rw [if_pos hs]
  · unfold recvWrite
    rw [if_neg hs]

/-- C7 witness: receiving the scalar value `7` from a one-element channel
into a `()`-shaped destination dequeues exactly that value and fills the
destination with it. -/
theorem recvExecute_takes_one_and_writes_witness :
    recvExecute ⟨[⟨[], [7]⟩]⟩ ⟨[], [0]⟩ =
        some (recvWrite ⟨[], [0]⟩ ⟨[], [7]⟩, ⟨[]⟩)
    ∧ recvWrite ⟨[], [0]⟩ ⟨[], [7]⟩ =
        tensorFill ⟨[], [0]⟩ (([7] : List ℚ).headD 0) :=
  ⟨(recvExecute_takes_one_and_writes ⟨[⟨[], [7]⟩]⟩ ⟨[], [0]⟩ ⟨[], [7]⟩
      [] rfl).1,
    (recvExecute_takes_one_and_writes ⟨[⟨[], [7]⟩]⟩ ⟨[], [0]⟩ ⟨[], [7]⟩
      [] rfl).2.1 rfl⟩

/-- C3 amended witness: at the concrete unknown tag `'poisson'` the
constructor returns the stored state successfully. -/
theorem rngFillInit_never_fails_witness :
    rngFillInit "poisson" { low := 0, high := 1, loc := 0, scale := 1 } =
      Except.ok { distribution := "poisson",
                  params := { low := 0, high := 1, loc := 0, scale := 1 } }
    ∧ rngFillInit "poisson" { low := 0, high := 1, loc := 0, scale := 1 } ≠
        Except.error (KernelError.unsupportedDistribution "other") :=
  ⟨(rngFillInit_never_fails "poisson"
      { low := 0, high := 1, loc := 0, scale := 1 }).1,
    (rngFillInit_never_fails "poisson"
      { low := 0, high := 1, loc := 0, scale := 1 }).2
      (KernelError.unsupportedDistribution "other")⟩
